import Mathlib

/-!
Shallow embedding of the café back-office reconciliation engine
(`cafe_app.py`): the cost calculator, the sales batch processor, the
stock decrementer, the profit aggregator and the gated deletions, with
the persistent store modelled as explicit record state.

Monetary amounts and stock quantities are rationals (the source uses
Python floats only for exact-looking arithmetic); item quantities are
naturals; timestamps are (date, microsecond-of-day) pairs ordered
lexicographically, matching the ISO-8601 string order used by the
store's `gte`/`lte` filters.
-/

namespace CafeApp

/-- Gregorian calendar date (`datetime.date`). -/
structure Date where
  year : Nat
  month : Nat
  day : Nat
deriving DecidableEq, Repr

/-- Gregorian leap-year rule used by `datetime` / `pandas`. -/
def isLeap (y : Nat) : Bool :=
  (y % 4 == 0) && (y % 100 != 0 || y % 400 == 0)

/-- Number of days in a month of a given year. -/
def daysInMonth (y : Nat) : Nat → Nat
  | 2 => if isLeap y then 29 else 28
  | 4 => 30
  | 6 => 30
  | 9 => 30
  | 11 => 30
  | _ => 31

/-- The day after a date (`+ Timedelta(days=1)` on a valid date). -/
def nextDay (d : Date) : Date :=
  if d.day < daysInMonth d.year d.month then
    { d with day := d.day + 1 }
  else if d.month < 12 then
    { year := d.year, month := d.month + 1, day := 1 }
  else
    { year := d.year + 1, month := 1, day := 1 }

/-- `d + Timedelta(days=n)`. -/
def addDays (d : Date) : Nat → Date
  | 0 => d
  | n + 1 => addDays (nextDay d) n

/-- The day before a date (`- Timedelta(days=1)` on a valid date). -/
def prevDay (d : Date) : Date :=
  if 1 < d.day then
    { d with day := d.day - 1 }
  else if 1 < d.month then
    { year := d.year, month := d.month - 1, day := daysInMonth d.year (d.month - 1) }
  else
    { year := d.year - 1, month := 12, day := 31 }

/-- Microsecond-of-day of `time.min` (00:00:00). -/
def timeMin : Nat := 0

/-- Microsecond-of-day of `time.max` (23:59:59.999999). -/
def timeMax : Nat := 86399999999

/-- Microsecond-of-day of `time(12, 0)`, the fixed noon instant. -/
def noonTime : Nat := 43200000000

/-- A timestamp: a date plus a microsecond-of-day. -/
structure DateTime where
  date : Date
  tod : Nat
deriving DecidableEq, Repr

/-- Strict lexicographic order on dates (equals ISO-string order). -/
def dateLtb (a b : Date) : Bool :=
  (a.year < b.year) ||
    (a.year == b.year &&
      ((a.month < b.month) || (a.month == b.month && a.day < b.day)))

/-- Non-strict lexicographic order on timestamps (equals ISO-string
order, which is how the store compares `timestamp` columns). -/
def dtLeb (a b : DateTime) : Bool :=
  dateLtb a.date b.date || (a.date == b.date && a.tod ≤ b.tod)

/-- `get_month_range`: first-of-month at `time.min`, last-of-month at
`time.max` (via the day-28-plus-4-days trick), and the first-of-month
date used as the expense key. -/
def get_month_range (selected : Date) : DateTime × DateTime × Date :=
  let start_of_month : Date := { selected with day := 1 }
  let next_month_start : Date := { addDays { start_of_month with day := 28 } 4 with day := 1 }
  let end_of_month : Date := prevDay next_month_start
  (⟨start_of_month, timeMin⟩, ⟨end_of_month, timeMax⟩, start_of_month)

/-- Stock tracking mode. -/
inductive Tracking where
  | UNIT
  | MULTI_USE
  | MANUAL
deriving DecidableEq, Repr

/-- A `stock_items` row (presentation-only columns omitted). -/
structure StockItem where
  id : Nat
  tracking_type : Tracking
  current_quantity : ℚ
  cost_per_unit : ℚ
deriving DecidableEq, Repr

/-- A `menu_item_recipe` row. -/
structure RecipeLink where
  menu_item_id : Nat
  stock_item_id : Nat
  quantity_used : ℚ
deriving DecidableEq, Repr

/-- A `workers` row. -/
structure Worker where
  id : Nat
  role : String
  salary : ℚ
deriving DecidableEq, Repr

/-- An `orders` row. -/
structure Order where
  id : Nat
  server_id : Nat
  timestamp : DateTime
deriving DecidableEq, Repr

/-- An `order_items` row. -/
structure OrderItem where
  order_id : Nat
  menu_item_id : Nat
  quantity : Nat
  price_at_sale : ℚ
  cost_at_sale : ℚ
deriving DecidableEq, Repr

/-- A `monthly_expenses` row. -/
structure MonthlyExpense where
  month : Date
  amount : ℚ
deriving DecidableEq, Repr

/-- The persistent store. `store_error` models whether the recipe
lookup issued inside `calculate_menu_item_cost` raises a store error
(the `except` branch of that function). -/
structure DB where
  stock_items : List StockItem
  menu_item_recipe : List RecipeLink
  workers : List Worker
  orders : List Order
  order_items : List OrderItem
  monthly_expenses : List MonthlyExpense
  store_error : Bool
deriving DecidableEq, Repr

/-- Cost-per-unit of the stock item a recipe link joins to, as returned
by the one-hop join `stock_items(cost_per_unit)`: `none` when the joined
row is absent. -/
def lookupCost (stock : List StockItem) (sid : Nat) : Option ℚ :=
  (stock.find? (fun s => s.id == sid)).map (·.cost_per_unit)

/-- The rows returned by the recipe query inside
`calculate_menu_item_cost`: `(quantity_used, joined cost_per_unit)` for
each recipe link of the menu item. -/
def recipeQuery (db : DB) (menu_item_id : Nat) : List (ℚ × Option ℚ) :=
  (db.menu_item_recipe.filter (fun l => l.menu_item_id == menu_item_id)).map
    (fun l => (l.quantity_used, lookupCost db.stock_items l.stock_item_id))

/-- Outcome of that query: the `try` body either raises (store error)
or yields the joined rows. -/
def recipe_query_result (db : DB) (menu_item_id : Nat) :
    Except Unit (List (ℚ × Option ℚ)) :=
  if db.store_error then .error () else .ok (recipeQuery db menu_item_id)

/-- Body of `calculate_menu_item_cost` applied to the query outcome:
the `except` branch returns 0; an empty recipe returns 0; otherwise the
rows are summed, a row whose joined stock item is absent being skipped
by the `if ingredient.get` guard. -/
def calculate_menu_item_cost_core : Except Unit (List (ℚ × Option ℚ)) → ℚ
  | .error _ => 0
  | .ok rows =>
    if rows = [] then 0
    else rows.foldl
      (fun total_cost r =>
        match r.2 with
        | some c => total_cost + r.1 * c
        | none => total_cost) 0

/-- `calculate_menu_item_cost`: cost of goods for a single menu item
from its recipe. -/
def calculate_menu_item_cost (db : DB) (menu_item_id : Nat) : ℚ :=
  calculate_menu_item_cost_core (recipe_query_result db menu_item_id)

/-- Modelled from the spec: the `decrement_stock` store procedure is a
database RPC whose SQL body is not in `src/` (only its call site is).
Per the spec's Stock Decrementer contract it reduces
`current_quantity` by the amount for UNIT and MULTI-USE items, never
decrements MANUAL items, and does not clamp at zero. -/
def decrement_stock (db : DB) (item_id : Nat) (amount_to_reduce : ℚ) : DB :=
  { db with
    stock_items := db.stock_items.map (fun s =>
      if s.id = item_id ∧ s.tracking_type ≠ Tracking.MANUAL then
        { s with current_quantity := s.current_quantity - amount_to_reduce }
      else s) }

/-- One caller-supplied entry of `sales_dict`. -/
structure SaleInfo where
  quantity : Nat
  sale_price : ℚ
deriving DecidableEq, Repr

/-- Step 3 of `process_daily_sales` for one sold item: fetch the item's
recipe rows and call `decrement_stock` with `quantity_used * quantity`
for each ingredient. -/
def apply_recipe_decrements (db : DB) (item_id : Nat) (quantity : Nat) : DB :=
  (db.menu_item_recipe.filter (fun l => l.menu_item_id == item_id)).foldl
    (fun d l => decrement_stock d l.stock_item_id (l.quantity_used * (quantity : ℚ)))
    db

/-- Which store calls succeed during one `process_daily_sales` run:
everything succeeds; the initial order insert returns no data; or a
later store call raises when the k-th non-zero-quantity item is
processed (the surrounding `try` then returns 0 without rolling back
earlier writes). -/
inductive StoreOutcome where
  | allOk
  | orderInsertFails
  | laterCallFails (k : Nat)
deriving DecidableEq, Repr

/-- The per-item loop of `process_daily_sales` (steps 2 and 3): skip
zero quantities, snapshot price and unit cost into one `order_items`
row, accumulate revenue, then decrement stock through the recipe.
`failAt = some 0` raises on the item about to be processed. -/
def processItems (oid : Nat) :
    Option Nat → List (Nat × SaleInfo) → DB → ℚ → DB × ℚ
  | _, [], db, total_revenue => (db, total_revenue)
  | failAt, (item_id, details) :: rest, db, total_revenue =>
    if details.quantity = 0 then
      processItems oid failAt rest db total_revenue
    else
      match failAt with
      | some 0 => (db, 0)
      | _ =>
        let price_at_sale := details.sale_price
        let cost_at_sale_per_item := calculate_menu_item_cost db item_id
        let db1 : DB :=
          { db with order_items := db.order_items ++
              [{ order_id := oid, menu_item_id := item_id,
                 quantity := details.quantity,
                 price_at_sale := price_at_sale,
                 cost_at_sale := cost_at_sale_per_item }] }
        let total1 := total_revenue + price_at_sale * (details.quantity : ℚ)
        let db2 := apply_recipe_decrements db1 item_id details.quantity
        processItems oid (failAt.map (· - 1)) rest db2 total1

/-- `process_daily_sales`: create the single order for the day at noon
on the sales date, then run the per-item loop. `oid` is the generated
id the store returns for the order insert. -/
def process_daily_sales (db : DB) (server_id : Nat)
    (sales_dict : List (Nat × SaleInfo)) (sales_date : Date) (oid : Nat)
    (oc : StoreOutcome) : DB × ℚ :=
  match oc with
  | .orderInsertFails => (db, 0)
  | .allOk =>
    let db1 : DB :=
      { db with orders := db.orders ++
          [{ id := oid, server_id := server_id,
             timestamp := ⟨sales_date, noonTime⟩ }] }
    processItems oid none sales_dict db1 0
  | .laterCallFails k =>
    let db1 : DB :=
      { db with orders := db.orders ++
          [{ id := oid, server_id := server_id,
             timestamp := ⟨sales_date, noonTime⟩ }] }
    processItems oid (some k) sales_dict db1 0

/-- How `render_daily_sales` classifies the value returned by
`process_daily_sales`: only a strictly positive total is a success. -/
def sales_submission_reported_success (total_revenue : ℚ) : Bool :=
  decide (0 < total_revenue)

/-- The delete branch of `render_stock_management`: deletion is gated
on the recipe links referencing the stock item; the flag records
whether the row was deleted. -/
def delete_stock_item (db : DB) (sid : Nat) : DB × Bool :=
  let recipe_links := db.menu_item_recipe.filter (fun l => l.stock_item_id == sid)
  if recipe_links.isEmpty then
    ({ db with stock_items := db.stock_items.filter (fun s => !(s.id == sid)) }, true)
  else
    (db, false)

/-- The delete branch of `render_staff_and_expenses`: deletion is gated
on the orders referencing the worker as server. -/
def delete_worker (db : DB) (wid : Nat) : DB × Bool :=
  let linked_orders := db.orders.filter (fun o => o.server_id == wid)
  if linked_orders.isEmpty then
    ({ db with workers := db.workers.filter (fun w => !(w.id == wid)) }, true)
  else
    (db, false)

/-- The delete branch of `render_manage_orders`. The code deletes only
the `orders` row; the removal of its `order_items` is — modelled from
the spec and the source comment — the store's cascade delete, whose
schema declaration is not in `src/`. Nothing touches `stock_items`. -/
def delete_order (db : DB) (oid : Nat) : DB :=
  { db with
    orders := db.orders.filter (fun o => !(o.id == oid)),
    order_items := db.order_items.filter (fun it => !(it.order_id == oid)) }

/-- The figures computed by the Monthly branch of `render_reports`. -/
structure MonthlyReport where
  total_revenue : ℚ
  total_cogs : ℚ
  gross_profit : ℚ
  total_salaries : ℚ
  total_expenses : ℚ
  net_profit : ℚ
deriving DecidableEq, Repr

/-- The Monthly branch of `render_reports`: inner-join `order_items`
with their parent order, keep those whose order timestamp is within
the month window (`gte`/`lte`), sum revenue and COGS, add all worker
salaries and the expenses keyed exactly by the first-of-month date. -/
def render_reports_monthly (db : DB) (selected_month_date : Date) : MonthlyReport :=
  let r := get_month_range selected_month_date
  let start_month := r.1
  let end_month := r.2.1
  let month_start_date := r.2.2
  let sales_data := db.order_items.filter (fun it =>
    match db.orders.find? (fun o => o.id == it.order_id) with
    | some o => dtLeb start_month o.timestamp && dtLeb o.timestamp end_month
    | none => false)
  let total_revenue := (sales_data.map (fun it => it.price_at_sale * (it.quantity : ℚ))).sum
  let total_cogs := (sales_data.map (fun it => it.cost_at_sale * (it.quantity : ℚ))).sum
  let gross_profit := total_revenue - total_cogs
  let total_salaries := (db.workers.map (·.salary)).sum
  let total_expenses :=
    ((db.monthly_expenses.filter (fun e => e.month == month_start_date)).map (·.amount)).sum
  let total_costs_operating := total_salaries + total_expenses
  { total_revenue := total_revenue, total_cogs := total_cogs,
    gross_profit := gross_profit, total_salaries := total_salaries,
    total_expenses := total_expenses,
    net_profit := gross_profit - total_costs_operating }

/-! ### Month-range computation -/

/-- Closed form of `get_month_range`: for any date in a valid month,
the window runs from day 1 at `time.min` to the last calendar day of
that month at `time.max`, and the expense key is the first of the
month. -/
theorem month_range_closed (y m d : Nat) (h1 : 1 ≤ m) (h2 : m ≤ 12) :
    get_month_range ⟨y, m, d⟩ =
      (⟨⟨y, m, 1⟩, timeMin⟩, ⟨⟨y, m, daysInMonth y m⟩, timeMax⟩, ⟨y, m, 1⟩) := by
  interval_cases m <;>
    cases hl : isLeap y <;>
      simp [get_month_range, addDays, nextDay, prevDay, daysInMonth, hl]

/-- C4: for every input date in a valid month, `get_month_range`
returns a window starting on day 1 of that month at `time.min` and
ending on the last calendar day of the same month at `time.max` —
`daysInMonth` being 28/29/30/31 with the Gregorian leap rule — and for
December the window ends on December 31 of the same year, the roll to
January happening in the following year inside the day-28-plus-4-days
computation. -/
theorem c4_get_month_range_window (y m d : Nat) (h1 : 1 ≤ m) (h2 : m ≤ 12) :
    get_month_range ⟨y, m, d⟩ =
      (⟨⟨y, m, 1⟩, timeMin⟩, ⟨⟨y, m, daysInMonth y m⟩, timeMax⟩, ⟨y, m, 1⟩) :=
  month_range_closed y m d h1 h2

/-- Witness for C4: leap-year February 2024 spans 02-01 through 02-29,
and December 2024 spans 12-01 through 12-31. -/
theorem c4_get_month_range_window_witness :
    (1 ≤ 2 ∧ 2 ≤ 12 ∧
      get_month_range ⟨2024, 2, 15⟩ =
        (⟨⟨2024, 2, 1⟩, timeMin⟩, ⟨⟨2024, 2, 29⟩, timeMax⟩, ⟨2024, 2, 1⟩)) ∧
    (1 ≤ 12 ∧ 12 ≤ 12 ∧
      get_month_range ⟨2024, 12, 15⟩ =
        (⟨⟨2024, 12, 1⟩, timeMin⟩, ⟨⟨2024, 12, 31⟩, timeMax⟩, ⟨2024, 12, 1⟩)) :=
  ⟨⟨by decide, by decide, by
      simpa [daysInMonth, isLeap] using
        c4_get_month_range_window 2024 2 15 (by decide) (by decide)⟩,
   ⟨by decide, by decide, by
      simpa [daysInMonth] using
        c4_get_month_range_window 2024 12 15 (by decide) (by decide)⟩⟩

/-! ### Cost calculator -/

/-- Contribution of one joined recipe row to the cost sum: rows whose
joined stock item is absent contribute 0. -/
def rowContrib (r : ℚ × Option ℚ) : ℚ :=
  match r.2 with
  | some c => r.1 * c
  | none => 0

theorem foldl_cost_rows (rows : List (ℚ × Option ℚ)) (a : ℚ) :
    rows.foldl
      (fun total_cost r =>
        match r.2 with
        | some c => total_cost + r.1 * c
        | none => total_cost) a
      = a + (rows.map rowContrib).sum := by
  induction rows generalizing a with
  | nil => simp
  | cons r rest ih =>
    obtain ⟨q, c⟩ := r
    cases c
    · simp [ih, rowContrib]
    · simp only [List.foldl_cons, List.map_cons, List.sum_cons, ih, rowContrib]
      ring

theorem core_ok_eq_sum (rows : List (ℚ × Option ℚ)) :
    calculate_menu_item_cost_core (.ok rows) = (rows.map rowContrib).sum := by
  rcases rows with _ | ⟨r, rest⟩
  · simp [calculate_menu_item_cost_core]
  · simp only [calculate_menu_item_cost_core]
    rw [if_neg (List.cons_ne_nil r rest), foldl_cost_rows, zero_add]

/-- C3: when the store is up and every recipe link of the menu item
joins to an existing stock item, `calculate_menu_item_cost` equals the
sum over the item's recipe links of `quantity_used` times the linked
stock item's current `cost_per_unit`; and for a menu item with no
recipe links it returns exactly 0. -/
theorem c3_calculate_menu_item_cost (db : DB) (mid : Nat) :
    (db.store_error = false →
      (∀ l ∈ db.menu_item_recipe, l.menu_item_id = mid →
        (lookupCost db.stock_items l.stock_item_id).isSome) →
      calculate_menu_item_cost db mid =
        ((db.menu_item_recipe.filter (fun l => l.menu_item_id == mid)).map
          (fun l => l.quantity_used *
            (lookupCost db.stock_items l.stock_item_id).getD 0)).sum) ∧
    (db.menu_item_recipe.filter (fun l => l.menu_item_id == mid) = [] →
      calculate_menu_item_cost db mid = 0) := by
  constructor
  · intro hs hres
    rw [calculate_menu_item_cost, recipe_query_result, hs, if_neg Bool.false_ne_true,
      core_ok_eq_sum, recipeQuery, List.map_map]
    refine congrArg List.sum (List.map_congr_left ?_)
    intro l hl
    have hmem := List.mem_of_mem_filter hl
    have hmid : l.menu_item_id = mid := by
      simpa using (List.of_mem_filter hl)
    obtain ⟨c, hc⟩ := Option.isSome_iff_exists.mp (hres l hmem hmid)
    simp [Function.comp, rowContrib, hc]
  · intro hempty
    rcases hserr : db.store_error with _ | _
    · rw [calculate_menu_item_cost, recipe_query_result, hserr,
        if_neg Bool.false_ne_true, core_ok_eq_sum, recipeQuery, hempty]
      simp
    · simp [calculate_menu_item_cost, recipe_query_result, hserr,
        calculate_menu_item_cost_core]

/-- Witness for C3: a latte whose recipe uses 4 units of ingredient 1
(cost 1/2) and 2 units of ingredient 2 (cost 3) costs 4·(1/2) + 2·3 = 8,
and an unreciped menu item costs 0. -/
theorem c3_calculate_menu_item_cost_witness :
    calculate_menu_item_cost
      { stock_items := [⟨1, Tracking.MULTI_USE, 100, 1/2⟩, ⟨2, Tracking.UNIT, 5, 3⟩],
        menu_item_recipe := [⟨10, 1, 4⟩, ⟨10, 2, 2⟩, ⟨11, 2, 9⟩],
        workers := [], orders := [], order_items := [], monthly_expenses := [],
        store_error := false } 10 = 8 ∧
    calculate_menu_item_cost
      { stock_items := [⟨1, Tracking.MULTI_USE, 100, 1/2⟩, ⟨2, Tracking.UNIT, 5, 3⟩],
        menu_item_recipe := [⟨10, 1, 4⟩, ⟨10, 2, 2⟩, ⟨11, 2, 9⟩],
        workers := [], orders := [], order_items := [], monthly_expenses := [],
        store_error := false } 99 = 0 :=
  ⟨((c3_calculate_menu_item_cost _ 10).1 rfl (by decide)).trans
      (by simp [lookupCost, List.filter, List.find?]; norm_num),
   (c3_calculate_menu_item_cost _ 99).2 (by rfl)⟩

/-! ### Stock decrements -/

/-- Amount of stock item `sid` consumed when `q` units of menu item
`item_id` are sold: the sum of `quantity_used * q` over the item's
recipe links to `sid`. -/
def itemUse (recipe : List RecipeLink) (item_id : Nat) (q : Nat) (sid : Nat) : ℚ :=
  (((recipe.filter (fun l => l.menu_item_id == item_id)).filter
      (fun l => l.stock_item_id == sid)).map
    (fun l => l.quantity_used * (q : ℚ))).sum

/-- Amount of stock item `sid` consumed by a whole sales batch. -/
def totalUse (recipe : List RecipeLink) (sales : List (Nat × SaleInfo)) (sid : Nat) : ℚ :=
  (sales.map (fun s => itemUse recipe s.1 s.2.quantity sid)).sum

theorem itemUse_zero (recipe : List RecipeLink) (item_id sid : Nat) :
    itemUse recipe item_id 0 sid = 0 := by
  simp [itemUse, List.sum_eq_zero]

theorem stock_map_manual_id (l : List StockItem) (g : StockItem → ℚ)
    (hg : ∀ s, g s = 0) :
    l.map (fun s =>
      if s.tracking_type = Tracking.MANUAL then s
      else { s with current_quantity := s.current_quantity - g s }) = l := by
  refine (List.map_congr_left ?_).trans (List.map_id _)
  intro s _
  by_cases h : s.tracking_type = Tracking.MANUAL
  · simp [h]
  · simp [h, hg s]

theorem foldl_decrement (links : List RecipeLink) (f : RecipeLink → ℚ) (db : DB) :
    links.foldl (fun d l => decrement_stock d l.stock_item_id (f l)) db =
      { db with stock_items := db.stock_items.map (fun s =>
          if s.tracking_type = Tracking.MANUAL then s
          else { s with current_quantity := s.current_quantity -
                   ((links.filter (fun l => l.stock_item_id == s.id)).map f).sum }) } := by
  induction links generalizing db with
  | nil =>
    rw [List.foldl_nil]
    rw [stock_map_manual_id _ _ (fun s => by simp)]
  | cons l rest ih =>
    rw [List.foldl_cons, ih]
    simp only [decrement_stock, List.map_map]
    congr 1
    refine List.map_congr_left ?_
    intro s _
    by_cases hman : s.tracking_type = Tracking.MANUAL
    · simp [Function.comp, hman]
    · by_cases hid : s.id = l.stock_item_id
      · simp [Function.comp, hman, hid, List.filter_cons, sub_sub]
      · have hid2 : ¬l.stock_item_id = s.id := fun h => hid h.symm
        simp [Function.comp, hman, hid, hid2, List.filter_cons]

theorem apply_recipe_decrements_closed (db : DB) (item_id : Nat) (q : Nat) :
    apply_recipe_decrements db item_id q =
      { db with stock_items := db.stock_items.map (fun s =>
          if s.tracking_type = Tracking.MANUAL then s
          else { s with current_quantity := s.current_quantity -
                   itemUse db.menu_item_recipe item_id q s.id }) } := by
  rw [apply_recipe_decrements, foldl_decrement]
  rfl

/-! ### What the cost calculator depends on -/

/-- The part of the store the cost calculator reads: the error flag,
the recipe table, and the (id, cost_per_unit) projection of stock. -/
def costView (db : DB) : Bool × List RecipeLink × List (Nat × ℚ) :=
  (db.store_error, db.menu_item_recipe,
    db.stock_items.map (fun s => (s.id, s.cost_per_unit)))

theorem lookupCost_congr (l1 : List StockItem) :
    ∀ l2 : List StockItem,
      l1.map (fun s => (s.id, s.cost_per_unit)) = l2.map (fun s => (s.id, s.cost_per_unit)) →
      ∀ sid, lookupCost l1 sid = lookupCost l2 sid := by
  induction l1 with
  | nil =>
    intro l2 h sid
    cases l2 with
    | nil => rfl
    | cons t r2 => simp at h
  | cons s r1 ih =>
    intro l2 h sid
    cases l2 with
    | nil => simp at h
    | cons t r2 =>
      simp only [List.map_cons, List.cons.injEq, Prod.mk.injEq] at h
      obtain ⟨⟨hid, hcost⟩, htail⟩ := h
      by_cases hs : s.id = sid
      · have ht : t.id = sid := by rw [← hid]; exact hs
        rw [lookupCost, lookupCost, List.find?_cons_of_pos _ (by simpa using hs),
          List.find?_cons_of_pos _ (by simpa using ht)]
        simp [hcost]
      · have ht : ¬t.id = sid := by rw [← hid]; exact hs
        rw [lookupCost, lookupCost, List.find?_cons_of_neg _ (by simpa using hs),
          List.find?_cons_of_neg _ (by simpa using ht)]
        simpa [lookupCost] using ih r2 htail sid

theorem calculate_congr (db1 db2 : DB) (h : costView db1 = costView db2)
    (mid : Nat) :
    calculate_menu_item_cost db1 mid = calculate_menu_item_cost db2 mid := by
  have hs : db1.store_error = db2.store_error := congrArg Prod.fst h
  have hr : db1.menu_item_recipe = db2.menu_item_recipe :=
    congrArg (fun p => p.2.1) h
  have hst := congrArg (fun p => p.2.2) h
  simp only [costView] at hst
  have hl : ∀ sid, lookupCost db1.stock_items sid = lookupCost db2.stock_items sid :=
    lookupCost_congr _ _ hst
  simp only [calculate_menu_item_cost, recipe_query_result, recipeQuery, hs, hr, hl]

theorem costView_apply_recipe_decrements (db : DB) (item_id q : Nat) :
    costView (apply_recipe_decrements db item_id q) = costView db := by
  rw [apply_recipe_decrements_closed]
  simp only [costView, List.map_map]
  refine congrArg _ (congrArg _ (List.map_congr_left ?_))
  intro s _
  by_cases hman : s.tracking_type = Tracking.MANUAL
  · simp [Function.comp, hman]
  · simp [Function.comp, hman]

/-! ### The per-item loop of the batch processor -/

theorem processItems_frame (oid : Nat) (sales : List (Nat × SaleInfo)) :
    ∀ (failAt : Option Nat) (db : DB) (acc : ℚ),
      (processItems oid failAt sales db acc).1.orders = db.orders ∧
      (processItems oid failAt sales db acc).1.workers = db.workers ∧
      (processItems oid failAt sales db acc).1.monthly_expenses = db.monthly_expenses ∧
      (processItems oid failAt sales db acc).1.menu_item_recipe = db.menu_item_recipe ∧
      (processItems oid failAt sales db acc).1.store_error = db.store_error := by
  induction sales with
  | nil => intro failAt db acc; simp [processItems]
  | cons s rest ih =>
    obtain ⟨i, info⟩ := s
    intro failAt db acc
    by_cases hq : info.quantity = 0
    · simpa [processItems, hq] using ih failAt db acc
    · rcases failAt with _ | ⟨_ | n⟩
      · simpa [processItems, hq, apply_recipe_decrements_closed] using
          ih none _ (acc + info.sale_price * (info.quantity : ℚ))
      · simp [processItems, hq]
      · simpa [processItems, hq, apply_recipe_decrements_closed] using
          ih (some n) _ (acc + info.sale_price * (info.quantity : ℚ))

theorem processItems_costView (oid : Nat) (sales : List (Nat × SaleInfo)) :
    ∀ (failAt : Option Nat) (db : DB) (acc : ℚ),
      costView (processItems oid failAt sales db acc).1 = costView db := by
  induction sales with
  | nil => intro failAt db acc; simp [processItems]
  | cons s rest ih =>
    obtain ⟨i, info⟩ := s
    intro failAt db acc
    by_cases hq : info.quantity = 0
    · simpa [processItems, hq] using ih failAt db acc
    · rcases failAt with _ | ⟨_ | n⟩
      · rw [show (processItems oid none ((i, info) :: rest) db acc) =
            processItems oid none rest
              (apply_recipe_decrements
                { db with order_items := db.order_items ++
                    [{ order_id := oid, menu_item_id := i, quantity := info.quantity,
                       price_at_sale := info.sale_price,
                       cost_at_sale := calculate_menu_item_cost db i }] }
                i info.quantity)
              (acc + info.sale_price * (info.quantity : ℚ)) from by
          simp [processItems, hq]]
        rw [ih, costView_apply_recipe_decrements]
        rfl
      · simp [processItems, hq]
      · rw [show (processItems oid (some (n + 1)) ((i, info) :: rest) db acc) =
            processItems oid (some n) rest
              (apply_recipe_decrements
                { db with order_items := db.order_items ++
                    [{ order_id := oid, menu_item_id := i, quantity := info.quantity,
                       price_at_sale := info.sale_price,
                       cost_at_sale := calculate_menu_item_cost db i }] }
                i info.quantity)
              (acc + info.sale_price * (info.quantity : ℚ)) from by
          simp [processItems, hq]]
        rw [ih, costView_apply_recipe_decrements]
        rfl

/-- The `order_items` row inserted for one sold item. -/
def insertedItem (db : DB) (oid i : Nat) (info : SaleInfo) : OrderItem :=
  { order_id := oid, menu_item_id := i, quantity := info.quantity,
    price_at_sale := info.sale_price,
    cost_at_sale := calculate_menu_item_cost db i }

/-- The store state after one loop iteration of `process_daily_sales`:
the new line item appended, then the recipe-driven decrements. -/
def stepDB (db : DB) (oid i : Nat) (info : SaleInfo) : DB :=
  apply_recipe_decrements
    { db with order_items := db.order_items ++ [insertedItem db oid i info] }
    i info.quantity

theorem processItems_cons_none (oid i : Nat) (info : SaleInfo)
    (rest : List (Nat × SaleInfo)) (db : DB) (acc : ℚ) (hq : info.quantity ≠ 0) :
    processItems oid none ((i, info) :: rest) db acc =
      processItems oid none rest (stepDB db oid i info)
        (acc + info.sale_price * (info.quantity : ℚ)) := by
  simp [processItems, hq, stepDB, insertedItem]

theorem processItems_cons_some_succ (oid i : Nat) (info : SaleInfo)
    (rest : List (Nat × SaleInfo)) (db : DB) (acc : ℚ) (n : Nat)
    (hq : info.quantity ≠ 0) :
    processItems oid (some (n + 1)) ((i, info) :: rest) db acc =
      processItems oid (some n) rest (stepDB db oid i info)
        (acc + info.sale_price * (info.quantity : ℚ)) := by
  simp [processItems, hq, stepDB, insertedItem]

theorem stepDB_costView (db : DB) (oid i : Nat) (info : SaleInfo) :
    costView (stepDB db oid i info) = costView db := by
  rw [stepDB, costView_apply_recipe_decrements]
  rfl

theorem stepDB_cost (db : DB) (oid i : Nat) (info : SaleInfo) (x : Nat) :
    calculate_menu_item_cost (stepDB db oid i info) x = calculate_menu_item_cost db x :=
  calculate_congr _ _ (stepDB_costView db oid i info) x

theorem stepDB_order_items (db : DB) (oid i : Nat) (info : SaleInfo) :
    (stepDB db oid i info).order_items = db.order_items ++ [insertedItem db oid i info] := by
  simp [stepDB, apply_recipe_decrements_closed]

theorem stepDB_recipe (db : DB) (oid i : Nat) (info : SaleInfo) :
    (stepDB db oid i info).menu_item_recipe = db.menu_item_recipe := by
  simp [stepDB, apply_recipe_decrements_closed]

theorem stepDB_stock (db : DB) (oid i : Nat) (info : SaleInfo) :
    (stepDB db oid i info).stock_items =
      db.stock_items.map (fun s =>
        if s.tracking_type = Tracking.MANUAL then s
        else { s with current_quantity := s.current_quantity -
                 itemUse db.menu_item_recipe i info.quantity s.id }) := by
  simp [stepDB, apply_recipe_decrements_closed]

theorem processItems_order_items (oid : Nat) (sales : List (Nat × SaleInfo)) :
    ∀ (db : DB) (acc : ℚ),
      (processItems oid none sales db acc).1.order_items =
        db.order_items ++
          (sales.filter (fun s => s.2.quantity != 0)).map (fun s =>
            insertedItem db oid s.1 s.2) := by
  induction sales with
  | nil => intro db acc; simp [processItems]
  | cons s rest ih =>
    obtain ⟨i, info⟩ := s
    intro db acc
    by_cases hq : info.quantity = 0
    · simpa [processItems, hq] using ih db acc
    · rw [processItems_cons_none oid i info rest db acc hq, ih,
        stepDB_order_items, List.append_assoc]
      have hcost : ∀ x, calculate_menu_item_cost (stepDB db oid i info) x =
          calculate_menu_item_cost db x := stepDB_cost db oid i info
      simp [List.filter_cons, hq, insertedItem, hcost]

theorem processItems_stock (oid : Nat) (sales : List (Nat × SaleInfo)) :
    ∀ (db : DB) (acc : ℚ),
      (processItems oid none sales db acc).1.stock_items =
        db.stock_items.map (fun s =>
          if s.tracking_type = Tracking.MANUAL then s
          else { s with current_quantity := s.current_quantity -
                   totalUse db.menu_item_recipe sales s.id }) := by
  induction sales with
  | nil =>
    intro db acc
    rw [show processItems oid none [] db acc = (db, acc) from rfl]
    rw [stock_map_manual_id _ _ (fun s => by simp [totalUse])]
  | cons s rest ih =>
    obtain ⟨i, info⟩ := s
    intro db acc
    by_cases hq : info.quantity = 0
    · rw [show processItems oid none ((i, info) :: rest) db acc =
          processItems oid none rest db acc from by simp [processItems, hq]]
      rw [ih]
      refine List.map_congr_left ?_
      intro s _
      simp [totalUse, hq, itemUse_zero]
    · rw [processItems_cons_none oid i info rest db acc hq, ih,
        stepDB_recipe, stepDB_stock, List.map_map]
      refine List.map_congr_left ?_
      intro s _
      by_cases hman : s.tracking_type = Tracking.MANUAL
      · simp [Function.comp, hman, totalUse]
      · simp [Function.comp, hman, totalUse, sub_sub]

theorem processItems_revenue (oid : Nat) (sales : List (Nat × SaleInfo)) :
    ∀ (db : DB) (acc : ℚ),
      (processItems oid none sales db acc).2 =
        acc + ((sales.filter (fun s => s.2.quantity != 0)).map
          (fun s => s.2.sale_price * (s.2.quantity : ℚ))).sum := by
  induction sales with
  | nil => intro db acc; simp [processItems]
  | cons s rest ih =>
    obtain ⟨i, info⟩ := s
    intro db acc
    by_cases hq : info.quantity = 0
    · simpa [processItems, hq] using ih db acc
    · rw [processItems_cons_none oid i info rest db acc hq, ih]
      simp [List.filter_cons, hq]
      ring

theorem processItems_fail_revenue (oid : Nat) (sales : List (Nat × SaleInfo)) :
    ∀ (k : Nat) (db : DB) (acc : ℚ),
      k < (sales.filter (fun s => s.2.quantity != 0)).length →
      (processItems oid (some k) sales db acc).2 = 0 := by
  induction sales with
  | nil => intro k db acc hk; simp at hk
  | cons s rest ih =>
    obtain ⟨i, info⟩ := s
    intro k db acc hk
    by_cases hq : info.quantity = 0
    · rw [show processItems oid (some k) ((i, info) :: rest) db acc =
          processItems oid (some k) rest db acc from by simp [processItems, hq]]
      exact ih k db acc (by simpa [List.filter_cons, hq] using hk)
    · rcases k with _ | n
      · simp [processItems, hq]
      · rw [processItems_cons_some_succ oid i info rest db acc n hq]
        refine ih n _ _ ?_
        have : (((i, info) :: rest).filter (fun s => s.2.quantity != 0)).length =
            ((rest.filter (fun s => s.2.quantity != 0)).length) + 1 := by
          simp [List.filter_cons, hq]
        omega

/-- How a batch may change one stock row: id, tracking mode and cost
stay fixed, and a MANUAL row stays entirely unchanged. -/
def stockRel (s t : StockItem) : Prop :=
  t.id = s.id ∧ t.tracking_type = s.tracking_type ∧ t.cost_per_unit = s.cost_per_unit ∧
    (s.tracking_type = Tracking.MANUAL → t = s)

theorem stockRel_refl (s : StockItem) : stockRel s s :=
  ⟨rfl, rfl, rfl, fun _ => rfl⟩

theorem stockRel_trans {a b c : StockItem} (h1 : stockRel a b) (h2 : stockRel b c) :
    stockRel a c := by
  obtain ⟨i1, t1, c1, m1⟩ := h1
  obtain ⟨i2, t2, c2, m2⟩ := h2
  exact ⟨i2.trans i1, t2.trans t1, c2.trans c1,
    fun hm => (m2 (t1.trans hm)).trans (m1 hm)⟩

theorem forall₂_stockRel_trans {l1 l2 l3 : List StockItem}
    (h1 : List.Forall₂ stockRel l1 l2) (h2 : List.Forall₂ stockRel l2 l3) :
    List.Forall₂ stockRel l1 l3 := by
  induction h1 generalizing l3 with
  | nil => cases h2; exact List.Forall₂.nil
  | cons hab _ ih =>
    cases h2 with
    | cons hbc h2 => exact List.Forall₂.cons (stockRel_trans hab hbc) (ih h2)

theorem stepDB_stock_rel (db : DB) (oid i : Nat) (info : SaleInfo) :
    List.Forall₂ stockRel db.stock_items (stepDB db oid i info).stock_items := by
  rw [stepDB_stock, List.forall₂_map_right_iff, List.forall₂_same]
  intro s _
  by_cases hman : s.tracking_type = Tracking.MANUAL
  · simp [hman, stockRel_refl]
  · simp [hman, stockRel]

theorem processItems_stock_rel (oid : Nat) (sales : List (Nat × SaleInfo)) :
    ∀ (failAt : Option Nat) (db : DB) (acc : ℚ),
      List.Forall₂ stockRel db.stock_items
        (processItems oid failAt sales db acc).1.stock_items := by
  induction sales with
  | nil =>
    intro failAt db acc
    exact List.forall₂_same.2 fun s _ => stockRel_refl s
  | cons s rest ih =>
    obtain ⟨i, info⟩ := s
    intro failAt db acc
    by_cases hq : info.quantity = 0
    · simpa [processItems, hq] using ih failAt db acc
    · rcases failAt with _ | ⟨_ | n⟩
      · rw [processItems_cons_none oid i info rest db acc hq]
        exact forall₂_stockRel_trans (stepDB_stock_rel db oid i info) (ih none _ _)
      · rw [show processItems oid (some 0) ((i, info) :: rest) db acc = (db, 0) from by
          simp [processItems, hq]]
        exact List.forall₂_same.2 fun s _ => stockRel_refl s
      · rw [processItems_cons_some_succ oid i info rest db acc n hq]
        exact forall₂_stockRel_trans (stepDB_stock_rel db oid i info) (ih (some n) _ _)

/-! ### The batch processor as called by the UI -/

/-- The store after the single daily order header is inserted. -/
def order_inserted (db : DB) (server_id oid : Nat) (sales_date : Date) : DB :=
  { db with orders := db.orders ++
      [{ id := oid, server_id := server_id, timestamp := ⟨sales_date, noonTime⟩ }] }

theorem process_allOk_eq (db : DB) (server_id : Nat) (sales : List (Nat × SaleInfo))
    (sales_date : Date) (oid : Nat) :
    process_daily_sales db server_id sales sales_date oid .allOk =
      processItems oid none sales (order_inserted db server_id oid sales_date) 0 :=
  rfl

theorem process_later_eq (db : DB) (server_id : Nat) (sales : List (Nat × SaleInfo))
    (sales_date : Date) (oid k : Nat) :
    process_daily_sales db server_id sales sales_date oid (.laterCallFails k) =
      processItems oid (some k) sales (order_inserted db server_id oid sales_date) 0 :=
  rfl

/-- C1: with every store call succeeding, a batch submission drops the
quantity-0 items before persistence, creates exactly one order whose
timestamp is noon on the sales date, inserts for each remaining item
one order line carrying the caller-supplied sale price and the cost
calculator's per-unit cost (not multiplied by quantity), and returns
the sum over remaining items of price times quantity. -/
theorem c1_process_daily_sales_batch (db : DB) (server_id : Nat)
    (sales : List (Nat × SaleInfo)) (sales_date : Date) (oid : Nat) :
    (process_daily_sales db server_id sales sales_date oid .allOk).1.orders =
        db.orders ++ [{ id := oid, server_id := server_id,
                        timestamp := ⟨sales_date, noonTime⟩ }] ∧
    (process_daily_sales db server_id sales sales_date oid .allOk).1.order_items =
        db.order_items ++
          (sales.filter (fun s => s.2.quantity != 0)).map (fun s =>
            { order_id := oid, menu_item_id := s.1, quantity := s.2.quantity,
              price_at_sale := s.2.sale_price,
              cost_at_sale := calculate_menu_item_cost db s.1 }) ∧
    (process_daily_sales db server_id sales sales_date oid .allOk).2 =
        ((sales.filter (fun s => s.2.quantity != 0)).map
          (fun s => s.2.sale_price * (s.2.quantity : ℚ))).sum := by
  rw [process_allOk_eq]
  have hcost : ∀ x, calculate_menu_item_cost (order_inserted db server_id oid sales_date) x =
      calculate_menu_item_cost db x :=
    fun x => calculate_congr _ _ rfl x
  refine ⟨?_, ?_, ?_⟩
  · rw [(processItems_frame oid sales none _ 0).1]
    rfl
  · rw [processItems_order_items]
    simp only [insertedItem, hcost]
    simp [order_inserted]
  · rw [processItems_revenue]
    simp

/-- C2: under every store outcome, a batch submission relates the
stock list pointwise to its previous state by `stockRel`: ids, tracking
modes and unit costs are preserved, and a MANUAL-tracked stock item is
never changed at all — only UNIT and MULTI-USE rows can have their
`current_quantity` reduced. -/
theorem c2_manual_never_decremented (db : DB) (server_id : Nat)
    (sales : List (Nat × SaleInfo)) (sales_date : Date) (oid : Nat)
    (oc : StoreOutcome) :
    List.Forall₂ stockRel db.stock_items
      (process_daily_sales db server_id sales sales_date oid oc).1.stock_items := by
  cases oc with
  | orderInsertFails => exact List.forall₂_same.2 fun s _ => stockRel_refl s
  | allOk =>
    rw [process_allOk_eq]
    exact processItems_stock_rel oid sales none
      (order_inserted db server_id oid sales_date) 0
  | laterCallFails k =>
    rw [process_later_eq]
    exact processItems_stock_rel oid sales (some k)
      (order_inserted db server_id oid sales_date) 0

/-- Witness for C2: a concrete batch against a MANUAL item and a UNIT
item leaves the MANUAL row untouched. -/
theorem c2_manual_never_decremented_witness :
    List.Forall₂ stockRel
      [⟨1, Tracking.MANUAL, 1, 0⟩, ⟨2, Tracking.UNIT, 10, 2⟩]
      ((process_daily_sales
          { stock_items := [⟨1, Tracking.MANUAL, 1, 0⟩, ⟨2, Tracking.UNIT, 10, 2⟩],
            menu_item_recipe := [⟨10, 1, 2⟩, ⟨10, 2, 1⟩],
            workers := [], orders := [], order_items := [], monthly_expenses := [],
            store_error := false }
          7 [(10, ⟨3, 5⟩)] ⟨2024, 5, 1⟩ 42 .allOk).1.stock_items) :=
  c2_manual_never_decremented
    { stock_items := [⟨1, Tracking.MANUAL, 1, 0⟩, ⟨2, Tracking.UNIT, 10, 2⟩],
      menu_item_recipe := [⟨10, 1, 2⟩, ⟨10, 2, 1⟩],
      workers := [], orders := [], order_items := [], monthly_expenses := [],
      store_error := false }
    7 [(10, ⟨3, 5⟩)] ⟨2024, 5, 1⟩ 42 .allOk

/-- C6 (amended): with every store call succeeding, each UNIT- or
MULTI-USE-tracked stock item's quantity decreases by exactly the total
recipe consumption of the batch — the sum over sold items and over
their recipe links to that stock item of `quantity_used * quantity` —
while MANUAL-tracked rows are exempt from the decrement. -/
theorem c6_stock_decrement_closed (db : DB) (server_id : Nat)
    (sales : List (Nat × SaleInfo)) (sales_date : Date) (oid : Nat) :
    (process_daily_sales db server_id sales sales_date oid .allOk).1.stock_items =
      db.stock_items.map (fun s =>
        if s.tracking_type = Tracking.MANUAL then s
        else { s with current_quantity := s.current_quantity -
                 totalUse db.menu_item_recipe sales s.id }) := by
  rw [process_allOk_eq, processItems_stock]
  rfl

/-- Counterexample to C6 as stated: the claim's 2-grams-per-unit,
3-units-sold example applied to a MANUAL-tracked ingredient. The batch
leaves its quantity at 1; the claimed decrement by exactly
`2 * 3 = 6` would have produced `1 - 6`. -/
theorem c6_counterexample :
    ((process_daily_sales
        { stock_items := [⟨1, Tracking.MANUAL, 1, 0⟩],
          menu_item_recipe := [⟨10, 1, 2⟩],
          workers := [], orders := [], order_items := [], monthly_expenses := [],
          store_error := false }
        7 [(10, ⟨3, 5⟩)] ⟨2024, 5, 1⟩ 42 .allOk).1.stock_items.map
      (fun s => s.current_quantity) = [1]) ∧
    (1 : ℚ) ≠ 1 - 2 * 3 := by
  constructor
  · rfl
  · norm_num

/-- C9: a store error inside the cost calculator's recipe lookup
yields 0, the same value an empty recipe yields, so the two outcomes
are indistinguishable to the caller; a joined row whose stock record is
absent contributes 0 to the sum; and a batch processed while that
lookup is failing writes only order lines whose `cost_at_sale` is 0. -/
theorem c9_cost_error_indistinguishable :
    calculate_menu_item_cost_core (.error ()) = 0 ∧
    calculate_menu_item_cost_core (.ok []) = 0 ∧
    (∀ (q : ℚ) (rows : List (ℚ × Option ℚ)),
      calculate_menu_item_cost_core (.ok ((q, none) :: rows)) =
        calculate_menu_item_cost_core (.ok rows)) ∧
    (∀ (db : DB) (server_id : Nat) (sales : List (Nat × SaleInfo))
        (sales_date : Date) (oid : Nat),
      db.store_error = true →
      ∀ it ∈ (process_daily_sales db server_id sales sales_date oid .allOk).1.order_items,
        it ∈ db.order_items ∨ it.cost_at_sale = 0) := by
  refine ⟨rfl, rfl, ?_, ?_⟩
  · intro q rows
    simp [core_ok_eq_sum, rowContrib]
  · intro db server_id sales sales_date oid hserr it hit
    rw [process_allOk_eq, processItems_order_items] at hit
    rcases List.mem_append.1 hit with hold | hnew
    · exact Or.inl hold
    · right
      obtain ⟨s, _, rfl⟩ := List.mem_map.1 hnew
      show calculate_menu_item_cost (order_inserted db server_id oid sales_date) s.1 = 0
      have : (order_inserted db server_id oid sales_date).store_error = true := hserr
      simp [calculate_menu_item_cost, recipe_query_result, this,
        calculate_menu_item_cost_core]

/-- Witness for C9: a concrete batch processed while the recipe lookup
is failing records `cost_at_sale = 0` on its one order line, and the
core returns 0 on both a store error and an empty recipe. -/
theorem c9_cost_error_indistinguishable_witness :
    calculate_menu_item_cost_core (.error ()) = 0 ∧
    calculate_menu_item_cost_core (.ok [((2 : ℚ), none)]) =
      calculate_menu_item_cost_core (.ok []) ∧
    (∀ it ∈ (process_daily_sales
        { stock_items := [⟨1, Tracking.UNIT, 10, 4⟩],
          menu_item_recipe := [⟨3, 1, 2⟩],
          workers := [], orders := [], order_items := [], monthly_expenses := [],
          store_error := true }
        1 [(3, ⟨2, 7⟩)] ⟨2024, 3, 4⟩ 9 .allOk).1.order_items,
      it ∈ ({ stock_items := [⟨1, Tracking.UNIT, 10, 4⟩],
              menu_item_recipe := [⟨3, 1, 2⟩],
              workers := [], orders := [], order_items := [], monthly_expenses := [],
              store_error := true } : DB).order_items ∨ it.cost_at_sale = 0) :=
  ⟨c9_cost_error_indistinguishable.1,
   c9_cost_error_indistinguishable.2.2.1 2 [],
   c9_cost_error_indistinguishable.2.2.2 _ 1 [(3, ⟨2, 7⟩)] ⟨2024, 3, 4⟩ 9 rfl⟩

/-- C10: `process_daily_sales` returns 0 when the order insert fails,
returns 0 when a later store call raises partway through the items, and
also returns 0 on a fully successful batch whose sale prices are all 0;
and the submitting caller classifies a result as success only when it
is strictly positive, so it reports all three cases as errors. -/
theorem c10_zero_return_ambiguous (db : DB) (server_id : Nat)
    (sales : List (Nat × SaleInfo)) (sales_date : Date) (oid k : Nat) :
    (process_daily_sales db server_id sales sales_date oid .orderInsertFails).2 = 0 ∧
    (k < (sales.filter (fun s => s.2.quantity != 0)).length →
      (process_daily_sales db server_id sales sales_date oid (.laterCallFails k)).2 = 0) ∧
    ((∀ s ∈ sales, s.2.sale_price = 0) →
      (process_daily_sales db server_id sales sales_date oid .allOk).2 = 0) ∧
    (∀ r : ℚ, r ≤ 0 → sales_submission_reported_success r = false) := by
  refine ⟨rfl, ?_, ?_, ?_⟩
  · intro hk
    rw [process_later_eq]
    exact processItems_fail_revenue oid sales k _ 0 hk
  · intro hzero
    rw [process_allOk_eq, processItems_revenue, zero_add]
    refine List.sum_eq_zero ?_
    intro x hx
    obtain ⟨s, hs, rfl⟩ := List.mem_map.1 hx
    rw [hzero s (List.mem_of_mem_filter hs), zero_mul]
  · intro r hr
    exact decide_eq_false (not_lt.2 hr)

/-- Witness for C10: on an empty store with one item sold at price 0,
all three runs return 0 and the caller reports failure. -/
theorem c10_zero_return_ambiguous_witness :
    (process_daily_sales ⟨[], [], [], [], [], [], false⟩ 1 [(1, ⟨2, 0⟩)]
        ⟨2024, 1, 2⟩ 5 .orderInsertFails).2 = 0 ∧
    (process_daily_sales ⟨[], [], [], [], [], [], false⟩ 1 [(1, ⟨2, 0⟩)]
        ⟨2024, 1, 2⟩ 5 (.laterCallFails 0)).2 = 0 ∧
    (process_daily_sales ⟨[], [], [], [], [], [], false⟩ 1 [(1, ⟨2, 0⟩)]
        ⟨2024, 1, 2⟩ 5 .allOk).2 = 0 ∧
    sales_submission_reported_success 0 = false := by
  have h := c10_zero_return_ambiguous ⟨[], [], [], [], [], [], false⟩ 1
    [(1, ⟨2, 0⟩)] ⟨2024, 1, 2⟩ 5 0
  exact ⟨h.1, h.2.1 (by decide), h.2.2.1 (by decide), h.2.2.2 0 le_rfl⟩

/-! ### Profit aggregation and deletions -/

/-- Order items whose parent order's timestamp lies within the
inclusive month window of (y, m): day 1 at `time.min` through the last
calendar day at `time.max`. This is the spec-side description of the
rows the monthly report aggregates. -/
def orderItemsInMonth (db : DB) (y m : Nat) : List OrderItem :=
  db.order_items.filter (fun it =>
    match db.orders.find? (fun o => o.id == it.order_id) with
    | some o =>
      dtLeb ⟨⟨y, m, 1⟩, timeMin⟩ o.timestamp &&
        dtLeb o.timestamp ⟨⟨y, m, daysInMonth y m⟩, timeMax⟩
    | none => false)

/-- C5: the monthly report's net profit equals gross profit — revenue
minus COGS over the order items whose parent order's timestamp lies in
the inclusive month window — minus the salaries of all workers
regardless of role or dates, minus the expenses whose month key equals
exactly the first-of-month date. -/
theorem c5_net_profit_formula (db : DB) (y m d : Nat) (h1 : 1 ≤ m) (h2 : m ≤ 12) :
    (render_reports_monthly db ⟨y, m, d⟩).net_profit =
      (((orderItemsInMonth db y m).map
          (fun it => it.price_at_sale * (it.quantity : ℚ))).sum -
        ((orderItemsInMonth db y m).map
          (fun it => it.cost_at_sale * (it.quantity : ℚ))).sum) -
      (db.workers.map (·.salary)).sum -
      ((db.monthly_expenses.filter (fun e => e.month == Date.mk y m 1)).map
        (·.amount)).sum := by
  simp only [render_reports_monthly, month_range_closed y m d h1 h2, orderItemsInMonth]
  ring

/-- Witness for C5: the spec's worked example — February 2024 revenue
1000, COGS 300, salaries 2000, expenses 100 keyed `2024-02-01` — nets
1000 − 300 − 2000 − 100 = −1400. -/
theorem c5_net_profit_formula_witness :
    (render_reports_monthly
      { stock_items := [], menu_item_recipe := [],
        workers := [⟨1, "server", 2000⟩],
        orders := [⟨1, 1, ⟨⟨2024, 2, 10⟩, noonTime⟩⟩],
        order_items := [⟨1, 1, 2, 500, 150⟩],
        monthly_expenses := [⟨⟨2024, 2, 1⟩, 100⟩],
        store_error := false } ⟨2024, 2, 15⟩).net_profit = -1400 := by
  rw [c5_net_profit_formula _ 2024 2 15 (by decide) (by decide)]
  simp [orderItemsInMonth, dtLeb, dateLtb, daysInMonth, isLeap, timeMin, timeMax,
    noonTime, List.filter, List.find?]
  norm_num

/-- C7: deleting a stock item referenced by at least one recipe link
fails and leaves the store unchanged; with no referencing link the row
is deleted. Deleting a worker referenced as server by at least one
order fails and leaves the store unchanged; with no referencing order
the row is deleted. -/
theorem c7_gated_deletions (db : DB) (sid wid : Nat) :
    ((∃ l ∈ db.menu_item_recipe, l.stock_item_id = sid) →
      delete_stock_item db sid = (db, false)) ∧
    ((∀ l ∈ db.menu_item_recipe, l.stock_item_id ≠ sid) →
      delete_stock_item db sid =
        ({ db with stock_items := db.stock_items.filter (fun s => !(s.id == sid)) },
          true)) ∧
    ((∃ o ∈ db.orders, o.server_id = wid) →
      delete_worker db wid = (db, false)) ∧
    ((∀ o ∈ db.orders, o.server_id ≠ wid) →
      delete_worker db wid =
        ({ db with workers := db.workers.filter (fun w => !(w.id == wid)) },
          true)) := by
  refine ⟨?_, ?_, ?_, ?_⟩
  · rintro ⟨l, hl, hsl⟩
    have hne : db.menu_item_recipe.filter (fun l => l.stock_item_id == sid) ≠ [] :=
      List.ne_nil_of_mem (List.mem_filter.2 ⟨hl, by simp [hsl]⟩)
    rw [delete_stock_item, if_neg (by simpa [List.isEmpty_iff] using hne)]
  · intro hall
    have hnil : db.menu_item_recipe.filter (fun l => l.stock_item_id == sid) = [] :=
      List.filter_eq_nil_iff.2 (fun l hl => by simpa using hall l hl)
    rw [delete_stock_item, if_pos (by simp [hnil])]
  · rintro ⟨o, ho, hso⟩
    have hne : db.orders.filter (fun o => o.server_id == wid) ≠ [] :=
      List.ne_nil_of_mem (List.mem_filter.2 ⟨ho, by simp [hso]⟩)
    rw [delete_worker, if_neg (by simpa [List.isEmpty_iff] using hne)]
  · intro hall
    have hnil : db.orders.filter (fun o => o.server_id == wid) = [] :=
      List.filter_eq_nil_iff.2 (fun o ho => by simpa using hall o ho)
    rw [delete_worker, if_pos (by simp [hnil])]

/-- Witness for C7: in a store where recipe link (10, 1) exists and no
order references worker 4, deleting stock item 1 fails while deleting
worker 4 succeeds. -/
theorem c7_gated_deletions_witness :
    delete_stock_item
      { stock_items := [⟨1, Tracking.UNIT, 5, 2⟩],
        menu_item_recipe := [⟨10, 1, 3⟩],
        workers := [⟨4, "barista", 900⟩], orders := [], order_items := [],
        monthly_expenses := [], store_error := false } 1 =
      ({ stock_items := [⟨1, Tracking.UNIT, 5, 2⟩],
         menu_item_recipe := [⟨10, 1, 3⟩],
         workers := [⟨4, "barista", 900⟩], orders := [], order_items := [],
         monthly_expenses := [], store_error := false }, false) ∧
    delete_worker
      { stock_items := [⟨1, Tracking.UNIT, 5, 2⟩],
        menu_item_recipe := [⟨10, 1, 3⟩],
        workers := [⟨4, "barista", 900⟩], orders := [], order_items := [],
        monthly_expenses := [], store_error := false } 4 =
      ({ stock_items := [⟨1, Tracking.UNIT, 5, 2⟩],
         menu_item_recipe := [⟨10, 1, 3⟩],
         workers := [], orders := [], order_items := [],
         monthly_expenses := [], store_error := false }, true) := by
  have h := c7_gated_deletions
    { stock_items := [⟨1, Tracking.UNIT, 5, 2⟩],
      menu_item_recipe := [⟨10, 1, 3⟩],
      workers := [⟨4, "barista", 900⟩], orders := [], order_items := [],
      monthly_expenses := [], store_error := false } 1 4
  refine ⟨h.1 ⟨⟨10, 1, 3⟩, by simp, rfl⟩, (h.2.2.2 (by simp)).trans ?_⟩
  rfl

/-- C8: deleting an order removes exactly its own order items — every
surviving row belongs to another order and rows of other orders all
survive — while the stock list is left completely unchanged (the
decrements applied when the order was recorded are not reversed). -/
theorem c8_delete_order_no_restock (db : DB) (oid : Nat) :
    ((delete_order db oid).order_items =
      db.order_items.filter (fun it => !(it.order_id == oid))) ∧
    (∀ it ∈ (delete_order db oid).order_items, it.order_id ≠ oid) ∧
    (∀ it ∈ db.order_items, it.order_id ≠ oid → it ∈ (delete_order db oid).order_items) ∧
    ((delete_order db oid).stock_items = db.stock_items) := by
  refine ⟨rfl, ?_, ?_, rfl⟩
  · intro it hit
    have := List.of_mem_filter hit
    simpa using this
  · intro it hit hne
    exact List.mem_filter.2 ⟨hit, by simpa using hne⟩

/-- Witness for C8: deleting order 1 removes its line and keeps order
2's line, with the stock list untouched. -/
theorem c8_delete_order_no_restock_witness :
    ((delete_order
        { stock_items := [⟨1, Tracking.UNIT, 4, 1⟩], menu_item_recipe := [],
          workers := [], orders := [⟨1, 1, ⟨⟨2024, 6, 1⟩, noonTime⟩⟩],
          order_items := [⟨1, 10, 2, 5, 1⟩, ⟨2, 11, 1, 3, 1⟩],
          monthly_expenses := [], store_error := false } 1).order_items =
      [⟨2, 11, 1, 3, 1⟩]) ∧
    ((delete_order
        { stock_items := [⟨1, Tracking.UNIT, 4, 1⟩], menu_item_recipe := [],
          workers := [], orders := [⟨1, 1, ⟨⟨2024, 6, 1⟩, noonTime⟩⟩],
          order_items := [⟨1, 10, 2, 5, 1⟩, ⟨2, 11, 1, 3, 1⟩],
          monthly_expenses := [], store_error := false } 1).stock_items =
      [⟨1, Tracking.UNIT, 4, 1⟩]) := by
  have h := c8_delete_order_no_restock
    { stock_items := [⟨1, Tracking.UNIT, 4, 1⟩], menu_item_recipe := [],
      workers := [], orders := [⟨1, 1, ⟨⟨2024, 6, 1⟩, noonTime⟩⟩],
      order_items := [⟨1, 10, 2, 5, 1⟩, ⟨2, 11, 1, 3, 1⟩],
      monthly_expenses := [], store_error := false } 1
  exact ⟨h.1.trans (by rfl), h.2.2.2⟩

end CafeApp
